import Mathlib

/-!
Verification of the to-do list application (src/app.py).

Shallow embedding conventions:
- Timestamps: the source calls datetime.now().isoformat() and compares
  creation/update times; we model each timestamp as a natural number, and each
  top-level operation receives one instant `now` used for every now() call it
  makes (the app is single-threaded and each operation is one interaction).
- The Streamlit session store st.session_state['tasks'] is modelled as
  `Option (List TaskRecord)`: `none` means the key is absent.
- Python dict rows produced by Task.to_dict are modelled as `TaskRecord`
  (all six keys present); rows with possibly-missing keys are `TaskRecordPart`
  (KeyError is modelled as Option failure).
- update_task's **kwargs is modelled as `TaskUpdate`: one Option per attribute
  of Task (setattr succeeds exactly on the six existing attributes; unknown
  keyword names fail hasattr and are skipped, so they are not modelled).
-/

namespace TodoApp

/-- A task, mirroring class Task of src/app.py: id, title, description,
status, created_at, updated_at. -/
structure Task where
  id : Int
  title : String
  description : String
  status : String
  created_at : Nat
  updated_at : Nat
deriving DecidableEq, Repr

/-- The dictionary produced by Task.to_dict: all six keys present. -/
structure TaskRecord where
  id : Int
  title : String
  description : String
  status : String
  created_at : Nat
  updated_at : Nat
deriving DecidableEq, Repr

/-- A dictionary with possibly-missing keys, fed to Task.from_dict. -/
structure TaskRecordPart where
  id : Option Int
  title : Option String
  description : Option String
  status : Option String
  created_at : Option Nat
  updated_at : Option Nat
deriving DecidableEq, Repr

/-- Keyword arguments of TaskManager.update_task: for each attribute of Task,
optionally a new value. -/
structure TaskUpdate where
  id : Option Int := none
  title : Option String := none
  description : Option String := none
  status : Option String := none
  created_at : Option Nat := none
  updated_at : Option Nat := none
deriving DecidableEq, Repr

/-- Task.__init__ (src/app.py lines 8-14): the id is the length of the session
snapshot plus one (Task._generate_id, lines 16-18); both datetime.now() calls
are modelled as the single instant `now`. -/
def Task.init (sessionTasks : List TaskRecord) (now : Nat)
    (title : String) (description : String) (status : String) : Task :=
  { id := (sessionTasks.length : Int) + 1
    title := title
    description := description
    status := status
    created_at := now
    updated_at := now }

/-- Task.to_dict (src/app.py lines 20-29). -/
def Task.to_dict (t : Task) : TaskRecord :=
  { id := t.id
    title := t.title
    description := t.description
    status := t.status
    created_at := t.created_at
    updated_at := t.updated_at }

/-- Task.from_dict (src/app.py lines 31-38) on a record with all keys present:
constructs a Task through Task.__init__ (which generates a throwaway id and
timestamps), then overwrites id, created_at and updated_at from the record. -/
def Task.from_dict (sessionTasks : List TaskRecord) (now : Nat)
    (data : TaskRecord) : Task :=
  let task := Task.init sessionTasks now data.title data.description data.status
  { task with id := data.id, created_at := data.created_at, updated_at := data.updated_at }

/-- Task.from_dict on a record with possibly-missing keys: each data[...]
access can raise KeyError, modelled as Option failure, in source order
(title, description, status, then id, created_at, updated_at). -/
def Task.from_dictPart (sessionTasks : List TaskRecord) (now : Nat)
    (data : TaskRecordPart) : Option Task :=
  data.title.bind fun title =>
  data.description.bind fun description =>
  data.status.bind fun status =>
  data.id.bind fun id =>
  data.created_at.bind fun created_at =>
  data.updated_at.bind fun updated_at =>
  some { Task.init sessionTasks now title description status with
         id := id, created_at := created_at, updated_at := updated_at }

/-- The combined state: the session store (none when the key 'tasks' is
absent) and the manager's in-memory task list. -/
structure AppState where
  session : Option (List TaskRecord)
  tasks : List Task
deriving DecidableEq, Repr

/-- The session snapshot equals the serialized form of the manager's
collection. -/
def synced (st : AppState) : Prop :=
  st.session = some (st.tasks.map Task.to_dict)

instance (st : AppState) : Decidable (synced st) := by
  unfold synced; infer_instance

/-- Every timestamp stored in the state is at most `now` (the clock is
monotone across operations). -/
def stateClockLE (st : AppState) (now : Nat) : Prop :=
  ∀ t ∈ st.tasks, t.created_at ≤ now ∧ t.updated_at ≤ now

instance (st : AppState) (now : Nat) : Decidable (stateClockLE st now) := by
  unfold stateClockLE; infer_instance

/-- TaskManager.__init__ together with _load_tasks (src/app.py lines 43-51):
ensure the session key exists (absent becomes the empty list), then rebuild
the in-memory collection by deserializing every row of the snapshot. -/
def TaskManager.init (session : Option (List TaskRecord)) (now : Nat) : AppState :=
  let sess := session.getD []
  { session := some sess
    tasks := sess.map (Task.from_dict sess now) }

/-- TaskManager._save_tasks (src/app.py lines 53-55): overwrite the whole
session snapshot with the serialized collection. -/
def save_tasks (st : AppState) : AppState :=
  { st with session := some (st.tasks.map Task.to_dict) }

/-- TaskManager.add_task (src/app.py lines 57-62): construct a Task (its id
comes from the session snapshot length at construction time), append it,
save, and return it. No title validation happens here. -/
def add_task (st : AppState) (now : Nat) (title : String) (description : String) :
    Task × AppState :=
  let task := Task.init (st.session.getD []) now title description "pending"
  let st2 := { st with tasks := st.tasks ++ [task] }
  (task, save_tasks st2)

/-- TaskManager.get_task_by_id (src/app.py lines 64-69): linear scan, first
match wins, none when absent. -/
def get_task_by_id (tasks : List Task) (task_id : Int) : Option Task :=
  match tasks with
  | [] => none
  | t :: ts => if t.id = task_id then some t else get_task_by_id ts task_id

/-- The setattr loop of TaskManager.update_task: every provided keyword that
names an existing attribute overwrites that attribute. -/
def applyKwargs (t : Task) (kw : TaskUpdate) : Task :=
  { id := kw.id.getD t.id
    title := kw.title.getD t.title
    description := kw.description.getD t.description
    status := kw.status.getD t.status
    created_at := kw.created_at.getD t.created_at
    updated_at := kw.updated_at.getD t.updated_at }

/-- Replace the first task whose id matches by its image under f, leaving
everything else in place (the in-place mutation of the object found by
get_task_by_id). -/
def updateFirst (tasks : List Task) (task_id : Int) (f : Task → Task) : List Task :=
  match tasks with
  | [] => []
  | t :: ts => if t.id = task_id then f t :: ts else t :: updateFirst ts task_id f

/-- TaskManager.update_task (src/app.py lines 71-81): look up the first task
with the given id; on a hit, apply the keyword overwrites, then refresh
updated_at (after the loop, so a provided updated_at is overridden), save,
return True; on a miss return False without saving. -/
def update_task (st : AppState) (now : Nat) (task_id : Int) (kw : TaskUpdate) :
    Bool × AppState :=
  match get_task_by_id st.tasks task_id with
  | some _ =>
      let tasks2 := updateFirst st.tasks task_id
        (fun t => { applyKwargs t kw with updated_at := now })
      (true, save_tasks { st with tasks := tasks2 })
  | none => (false, st)

/-- Remove the first entry whose id matches (specification-side description of
what delete_task does to the list). -/
def eraseFirstById (tasks : List Task) (task_id : Int) : List Task :=
  match tasks with
  | [] => []
  | t :: ts => if t.id = task_id then ts else t :: eraseFirstById ts task_id

/-- TaskManager.delete_task (src/app.py lines 83-90): look up the first task
with the given id; on a hit, list.remove that object (remove the first equal
element), save, return True; on a miss return False. -/
def delete_task (st : AppState) (task_id : Int) : Bool × AppState :=
  match get_task_by_id st.tasks task_id with
  | some task => (true, save_tasks { st with tasks := st.tasks.erase task })
  | none => (false, st)

/-- The statistics record returned by TaskManager.get_stats. The completion
rate is a Python float computed as completed / total * 100; we model the
exact value as a rational. -/
structure Stats where
  total : Nat
  pending : Nat
  completed : Nat
  completion_rate : ℚ
deriving DecidableEq, Repr

/-- TaskManager.get_stats (src/app.py lines 98-108). -/
def get_stats (st : AppState) : Stats :=
  let total := st.tasks.length
  let pending := (st.tasks.filter (fun t => t.status == "pending")).length
  let completed := (st.tasks.filter (fun t => t.status == "completed")).length
  { total := total
    pending := pending
    completed := completed
    completion_rate := if total > 0 then (completed : ℚ) / (total : ℚ) * 100 else 0 }

/-- The Add Task button handler (src/app.py lines 123-128): a Python string is
truthy exactly when non-empty, so an empty title never reaches add_task and
the state is untouched. -/
def handleAddTask (st : AppState) (now : Nat) (title : String) (description : String) :
    AppState :=
  if title = "" then st else (add_task st now title description).2

/-- States reachable through the TaskManager interface, starting from a fresh
manager with no snapshot, with a monotone clock. update_task may receive any
keyword arguments, as in the source. -/
inductive Reachable : AppState → Prop where
  | init : ∀ now, Reachable (TaskManager.init none now)
  | add : ∀ st now title description, Reachable st → stateClockLE st now →
      Reachable (add_task st now title description).2
  | update : ∀ st now task_id kw, Reachable st → stateClockLE st now →
      Reachable (update_task st now task_id kw).2
  | delete : ∀ st task_id, Reachable st →
      Reachable (delete_task st task_id).2

/-- States reachable through the TaskManager interface when update_task is
only ever given well-formed keyword arguments: no override of id, created_at
or updated_at, and a status that is pending or completed when provided (this
is what the UI layer of src/app.py does). -/
inductive ReachableChecked : AppState → Prop where
  | init : ∀ now, ReachableChecked (TaskManager.init none now)
  | add : ∀ st now title description, ReachableChecked st → stateClockLE st now →
      ReachableChecked (add_task st now title description).2
  | update : ∀ st now task_id kw, ReachableChecked st → stateClockLE st now →
      kw.id = none → kw.created_at = none → kw.updated_at = none →
      (kw.status = none ∨ kw.status = some "pending" ∨ kw.status = some "completed") →
      ReachableChecked (update_task st now task_id kw).2
  | delete : ∀ st task_id, ReachableChecked st →
      ReachableChecked (delete_task st task_id).2

/-- The three data-model invariants of spec section 3. -/
def TaskInvariants (st : AppState) : Prop :=
  (∀ t1 ∈ st.tasks, ∀ t2 ∈ st.tasks, t1.id = t2.id → t1 = t2) ∧
  (∀ t ∈ st.tasks, t.status = "pending" ∨ t.status = "completed") ∧
  (∀ t ∈ st.tasks, t.created_at ≤ t.updated_at)

instance (st : AppState) : Decidable (TaskInvariants st) := by
  unfold TaskInvariants; infer_instance

/- Concrete scenario: add two tasks, set an arbitrary status on the second,
delete the first, add a third. The third task receives id 2, colliding with
the surviving second task. -/

/-- Fresh state: no snapshot. -/
def scn0 : AppState := TaskManager.init none 0

/-- After add_task at time 1: task with id 1. -/
def scn1 : AppState := (add_task scn0 1 "a" "").2

/-- After a second add_task at time 2: task with id 2. -/
def scn2 : AppState := (add_task scn1 2 "b" "").2

/-- After update_task setting status to an arbitrary string at time 3. -/
def scn3 : AppState := (update_task scn2 3 2 { status := some "banana" }).2

/-- After delete_task of id 1 at time 4. -/
def scn4 : AppState := (delete_task scn3 1).2

/-- After a third add_task at time 4: this task also receives id 2. -/
def scn5 : AppState := (add_task scn4 4 "c" "").2

/-- The third added task, as it sits in scn5: its id collides with task b. -/
def taskC : Task :=
  { id := 2, title := "c", description := "", status := "pending",
    created_at := 4, updated_at := 4 }

/- Concrete witness states, following the scenario of spec section 8:
add two tasks, mark the first completed. -/

/-- Fresh witness state. -/
def wit0 : AppState := TaskManager.init none 0

/-- One task, id 1. -/
def wit1 : AppState := (add_task wit0 1 "Buy milk" "").2

/-- Two tasks, ids 1 and 2. -/
def wit2 : AppState := (add_task wit1 2 "Write report" "").2

/-- Task 1 marked completed at time 3. -/
def wit3 : AppState := (update_task wit2 3 1 { status := some "completed" }).2

/-- The first witness task, as it sits in wit1 and wit2. -/
def taskMilk : Task :=
  { id := 1, title := "Buy milk", description := "", status := "pending",
    created_at := 1, updated_at := 1 }

/-- The first witness task after being marked completed, as it sits in wit3. -/
def taskMilkDone : Task :=
  { id := 1, title := "Buy milk", description := "", status := "completed",
    created_at := 1, updated_at := 3 }

/- General lemmas about the embedded operations. -/

/-- A task found by get_task_by_id carries the id that was searched. -/
theorem get_task_by_id_id {tasks : List Task} {task_id : Int} {t : Task}
    (h : get_task_by_id tasks task_id = some t) : t.id = task_id := by
  induction tasks with
  | nil => simp [get_task_by_id] at h
  | cons u us ih =>
    by_cases hu : u.id = task_id
    · rw [get_task_by_id, if_pos hu] at h
      injection h with h
      subst h
      exact hu
    · simp [get_task_by_id, hu] at h; exact ih h

/-- A task found by get_task_by_id is a member of the list. -/
theorem get_task_by_id_mem {tasks : List Task} {task_id : Int} {t : Task}
    (h : get_task_by_id tasks task_id = some t) : t ∈ tasks := by
  induction tasks with
  | nil => simp [get_task_by_id] at h
  | cons u us ih =>
    by_cases hu : u.id = task_id
    · simp [get_task_by_id, hu] at h; simp [h]
    · simp [get_task_by_id, hu] at h; simp [ih h]

/-- get_task_by_id misses exactly when no task in the list has the id. -/
theorem get_task_by_id_eq_none {tasks : List Task} {task_id : Int} :
    get_task_by_id tasks task_id = none ↔ ∀ t ∈ tasks, t.id ≠ task_id := by
  induction tasks with
  | nil => simp [get_task_by_id]
  | cons u us ih =>
    by_cases hu : u.id = task_id <;> simp [get_task_by_id, hu, ih]

/-- get_task_by_id hits exactly when some task in the list has the id. -/
theorem get_task_by_id_isSome {tasks : List Task} {task_id : Int} :
    (get_task_by_id tasks task_id).isSome = true ↔ ∃ t ∈ tasks, t.id = task_id := by
  induction tasks with
  | nil => simp [get_task_by_id]
  | cons u us ih =>
    by_cases hu : u.id = task_id <;> simp [get_task_by_id, hu, ih]

/-- Erasing the task found by get_task_by_id removes exactly the first entry
whose id matches: no earlier entry can equal it, since it would share the id. -/
theorem erase_found_eq_eraseFirstById {tasks : List Task} {task_id : Int} {t : Task}
    (h : get_task_by_id tasks task_id = some t) :
    tasks.erase t = eraseFirstById tasks task_id := by
  induction tasks with
  | nil => simp [get_task_by_id] at h
  | cons u us ih =>
    by_cases hu : u.id = task_id
    · simp [get_task_by_id, hu] at h
      subst h
      simp [List.erase_cons, eraseFirstById, hu]
    · simp [get_task_by_id, hu] at h
      have hne : u ≠ t := by
        intro he
        exact hu (he ▸ get_task_by_id_id h)
      simp [List.erase_cons, hne, eraseFirstById, hu, ih h]

/-- When the tasks' ids are pairwise distinct, removing the first entry with a
given id leaves no entry with that id. -/
theorem get_eraseFirstById_none {tasks : List Task} {task_id : Int}
    (hnodup : (tasks.map (fun t => t.id)).Nodup) :
    get_task_by_id (eraseFirstById tasks task_id) task_id = none := by
  induction tasks with
  | nil => simp [eraseFirstById, get_task_by_id]
  | cons u us ih =>
    simp only [List.map_cons, List.nodup_cons] at hnodup
    by_cases hu : u.id = task_id
    · simp only [eraseFirstById, if_pos hu]
      rw [get_task_by_id_eq_none]
      intro t ht he
      exact hnodup.1 (by rw [hu, ← he]; exact List.mem_map_of_mem _ ht)
    · simp only [eraseFirstById, if_neg hu]
      simp [get_task_by_id, hu, ih hnodup.2]

/-- Every member of an updateFirst image is an original member or the image
of an original member. -/
theorem mem_updateFirst {tasks : List Task} {task_id : Int} {f : Task → Task} {x : Task}
    (hx : x ∈ updateFirst tasks task_id f) : x ∈ tasks ∨ ∃ t ∈ tasks, x = f t := by
  induction tasks with
  | nil => simp [updateFirst] at hx
  | cons u us ih =>
    by_cases hu : u.id = task_id
    · simp only [updateFirst, if_pos hu, List.mem_cons] at hx
      rcases hx with hx | hx
      · exact Or.inr ⟨u, List.mem_cons_self u us, hx⟩
      · exact Or.inl (List.mem_cons_of_mem u hx)
    · simp only [updateFirst, if_neg hu, List.mem_cons] at hx
      rcases hx with hx | hx
      · exact Or.inl (hx ▸ List.mem_cons_self u us)
      · rcases ih hx with h | ⟨t, ht, he⟩
        · exact Or.inl (List.mem_cons_of_mem u h)
        · exact Or.inr ⟨t, List.mem_cons_of_mem u ht, he⟩

/-- Looking up the updated id after updateFirst returns the image of the task
that get_task_by_id found, provided the update kept its id. -/
theorem get_updateFirst {tasks : List Task} {task_id : Int} {f : Task → Task} {t : Task}
    (h : get_task_by_id tasks task_id = some t) (hf : (f t).id = task_id) :
    get_task_by_id (updateFirst tasks task_id f) task_id = some (f t) := by
  induction tasks with
  | nil => simp [get_task_by_id] at h
  | cons u us ih =>
    by_cases hu : u.id = task_id
    · simp only [get_task_by_id, if_pos hu, Option.some.injEq] at h
      subst h
      simp [updateFirst, if_pos hu, get_task_by_id, hf]
    · simp only [get_task_by_id, if_neg hu] at h
      simp [updateFirst, if_neg hu, get_task_by_id, hu, ih h]

/-- Deserializing a serialized task restores it exactly: the id and timestamps
generated inside Task.__init__ are overwritten from the record. -/
theorem from_dict_to_dict (sess : List TaskRecord) (now : Nat) (t : Task) :
    Task.from_dict sess now (Task.to_dict t) = t := rfl

/-- Serializing a deserialized record restores the record exactly. -/
theorem to_dict_from_dict (sess : List TaskRecord) (now : Nat) (d : TaskRecord) :
    Task.to_dict (Task.from_dict sess now d) = d := rfl

/-- Deserializing a whole serialized collection restores it exactly. -/
theorem map_from_dict_map_to_dict (sess : List TaskRecord) (now : Nat)
    (tasks : List Task) :
    (tasks.map Task.to_dict).map (Task.from_dict sess now) = tasks := by
  induction tasks with
  | nil => rfl
  | cons t ts ih => simp only [List.map_cons, from_dict_to_dict, ih]

/-- When no entry has the id, eraseFirstById leaves the list unchanged. -/
theorem eraseFirstById_eq_self {tasks : List Task} {task_id : Int}
    (h : ∀ t ∈ tasks, t.id ≠ task_id) : eraseFirstById tasks task_id = tasks := by
  induction tasks with
  | nil => rfl
  | cons u us ih =>
    rw [eraseFirstById, if_neg (h u (List.mem_cons_self u us))]
    rw [ih (fun t ht => h t (List.mem_cons_of_mem u ht))]

/-- When the tasks' ids are pairwise distinct, looking up the id of a member
returns exactly that member. -/
theorem get_task_by_id_of_mem_nodup {tasks : List Task} {t : Task}
    (hnodup : (tasks.map (fun u => u.id)).Nodup) (hmem : t ∈ tasks) :
    get_task_by_id tasks t.id = some t := by
  induction tasks with
  | nil => simp at hmem
  | cons u us ih =>
    simp only [List.map_cons, List.nodup_cons] at hnodup
    rcases List.mem_cons.mp hmem with he | hm
    · subst he; simp [get_task_by_id]
    · have hne : u.id ≠ t.id := by
        intro he
        apply hnodup.1
        rw [he]
        exact List.mem_map_of_mem _ hm
      simp [get_task_by_id, hne, ih hnodup.2 hm]

/-- Serializing a collection built by mapping Task.from_dict over a snapshot
restores the snapshot, whatever session and clock the deserialization saw. -/
theorem map_to_dict_map_from_dict (s2 : List TaskRecord) (now : Nat)
    (sess : List TaskRecord) :
    (sess.map (Task.from_dict s2 now)).map Task.to_dict = sess := by
  induction sess with
  | nil => rfl
  | cons d ds ih => simp only [List.map_cons, to_dict_from_dict, ih]

/- Claim theorems. -/

/-- C1: adding a task with an empty title is rejected before construction:
the Add Task handler creates no task and leaves the task collection and the
session snapshot unchanged. -/
theorem C1_empty_title_add_rejected (st : AppState) (now : Nat) (description : String) :
    handleAddTask st now "" description = st := by
  simp [handleAddTask]

/-- C4: on a synced state, add_task returns a new Task whose id is the current
collection size plus one, with status pending and equal creation and update
timestamps, and appends it at the end of the ordered collection. -/
theorem C4_add_returns_fresh_task (st : AppState) (now : Nat)
    (title description : String) (hsync : synced st) :
    (add_task st now title description).1.id = (st.tasks.length : Int) + 1 ∧
    (add_task st now title description).1.status = "pending" ∧
    (add_task st now title description).1.created_at
      = (add_task st now title description).1.updated_at ∧
    (add_task st now title description).2.tasks
      = st.tasks ++ [(add_task st now title description).1] := by
  unfold synced at hsync
  refine ⟨?_, rfl, rfl, rfl⟩
  simp [add_task, Task.init, hsync]

/-- Witness for C4: the first scenario state is synced, and adding a second
task yields id 2, status pending, equal timestamps, appended at the end. -/
theorem C4_witness :
    synced wit1 ∧
    ((add_task wit1 2 "Write report" "").1.id = (wit1.tasks.length : Int) + 1 ∧
     (add_task wit1 2 "Write report" "").1.status = "pending" ∧
     (add_task wit1 2 "Write report" "").1.created_at
       = (add_task wit1 2 "Write report" "").1.updated_at ∧
     (add_task wit1 2 "Write report" "").2.tasks
       = wit1.tasks ++ [(add_task wit1 2 "Write report" "").1]) :=
  ⟨by decide, C4_add_returns_fresh_task wit1 2 "Write report" "" (by decide)⟩

/-- C7: deserializing the serialization of any task yields a task that is
field-for-field equal to the original, whatever the session contents and the
clock are at deserialization time. -/
theorem C7_serialize_roundtrip (sess : List TaskRecord) (now : Nat) (t : Task) :
    Task.from_dict sess now (Task.to_dict t) = t := rfl

/-- C8: get_stats returns the collection size, the pending count, the
completed count, and the completion rate completed / total * 100 when the
collection is non-empty and 0 on the empty collection; it depends only on the
current collection. -/
theorem C8_stats_fresh (st : AppState) :
    (get_stats st).total = st.tasks.length ∧
    (get_stats st).pending = st.tasks.countP (fun t => t.status == "pending") ∧
    (get_stats st).completed = st.tasks.countP (fun t => t.status == "completed") ∧
    (0 < st.tasks.length →
      (get_stats st).completion_rate
        = ((st.tasks.countP (fun t => t.status == "completed") : ℚ)
            / (st.tasks.length : ℚ)) * 100) ∧
    (st.tasks = [] →
      get_stats st = { total := 0, pending := 0, completed := 0, completion_rate := 0 }) ∧
    (∀ st2 : AppState, st2.tasks = st.tasks → get_stats st2 = get_stats st) := by
  refine ⟨rfl, ?_, ?_, ?_, ?_, ?_⟩
  · simp [get_stats, List.countP_eq_length_filter]
  · simp [get_stats, List.countP_eq_length_filter]
  · intro h
    simp [get_stats, List.countP_eq_length_filter, h]
  · intro h
    simp [get_stats, h]
  · intro st2 h
    simp [get_stats, h]

/-- Witness for C8: two tasks with one completed give a completion rate of
completed / total * 100, which evaluates to 50. -/
theorem C8_witness :
    (get_stats wit3).completion_rate
      = ((wit3.tasks.countP (fun t => t.status == "completed") : ℚ)
          / (wit3.tasks.length : ℚ)) * 100 ∧
    (get_stats wit3).completion_rate = 50 := by
  have h := (C8_stats_fresh wit3).2.2.2.1 (by decide)
  refine ⟨h, ?_⟩
  rw [h]
  rw [show wit3.tasks.countP (fun t => t.status == "completed") = 1 from by decide]
  rw [show wit3.tasks.length = 2 from by decide]
  norm_num

/-- C10: from_dict succeeds exactly when the record carries all six keys, and
fails whenever any of them is missing. -/
theorem C10_from_dict_requires_all_keys (sess : List TaskRecord) (now : Nat)
    (data : TaskRecordPart) :
    (∃ t, Task.from_dictPart sess now data = some t) ↔
      (data.title.isSome = true ∧ data.description.isSome = true ∧
       data.status.isSome = true ∧ data.id.isSome = true ∧
       data.created_at.isSome = true ∧ data.updated_at.isSome = true) := by
  obtain ⟨i, ti, de, s, c, u⟩ := data
  cases i <;> cases ti <;> cases de <;> cases s <;> cases c <;> cases u <;>
    simp [Task.from_dictPart]

/-- Witness for C10: a record with all six keys deserializes successfully. -/
theorem C10_witness :
    ∃ t, Task.from_dictPart [] 0
      { id := some 7, title := some "a", description := some "",
        status := some "pending", created_at := some 1, updated_at := some 2 }
      = some t :=
  (C10_from_dict_requires_all_keys [] 0
    { id := some 7, title := some "a", description := some "",
      status := some "pending", created_at := some 1, updated_at := some 2 }).mpr
    (by decide)

/-- Counterexample for C2 as stated: in the state reached by add, add,
update, delete, add (ids are reissued after a delete), the task taskC is in
the collection but looking up its id returns the other task with the same
id, which differs from taskC. -/
theorem C2_counterexample :
    taskC ∈ scn5.tasks ∧ get_task_by_id scn5.tasks taskC.id ≠ some taskC := by
  decide

/-- C2 amended: for every task t in the collection, provided the tasks' ids
are pairwise distinct, get_task_by_id on t.id returns a task equal to t. -/
theorem C2_get_returns_member (st : AppState) (t : Task)
    (hnodup : (st.tasks.map (fun u => u.id)).Nodup) (hmem : t ∈ st.tasks) :
    get_task_by_id st.tasks t.id = some t :=
  get_task_by_id_of_mem_nodup hnodup hmem

/-- Witness for C2 at a concrete two-task state with distinct ids. -/
theorem C2_witness :
    taskMilk ∈ wit2.tasks ∧ get_task_by_id wit2.tasks taskMilk.id = some taskMilk :=
  ⟨by decide, C2_get_returns_member wit2 taskMilk (by decide) (by decide)⟩

/-- Counterexample for C3 as stated: in the collision state, delete_task of
id 2 returns success, yet a subsequent lookup of id 2 still finds a task. -/
theorem C3_counterexample :
    (delete_task scn5 2).1 = true ∧
    get_task_by_id (delete_task scn5 2).2.tasks 2 ≠ none := by
  decide

/-- C3 amended: delete_task removes the first entry whose id matches and
returns whether a task with that id existed; provided the tasks' ids are
pairwise distinct, a delete followed by a lookup of the same id yields
not-found. -/
theorem C3_delete_semantics (st : AppState) (task_id : Int) :
    ((delete_task st task_id).1 = true ↔ ∃ t ∈ st.tasks, t.id = task_id) ∧
    (delete_task st task_id).2.tasks = eraseFirstById st.tasks task_id ∧
    ((st.tasks.map (fun u => u.id)).Nodup →
      get_task_by_id (delete_task st task_id).2.tasks task_id = none) := by
  refine ⟨?_, ?_, ?_⟩
  · have hb : (delete_task st task_id).1 = (get_task_by_id st.tasks task_id).isSome := by
      cases hget : get_task_by_id st.tasks task_id <;> simp [delete_task, hget]
    rw [hb]
    exact get_task_by_id_isSome
  · cases hget : get_task_by_id st.tasks task_id with
    | none =>
      simp only [delete_task, hget]
      exact (eraseFirstById_eq_self (get_task_by_id_eq_none.mp hget)).symm
    | some t =>
      simp only [delete_task, hget, save_tasks]
      exact erase_found_eq_eraseFirstById hget
  · intro hnodup
    cases hget : get_task_by_id st.tasks task_id with
    | none =>
      simp only [delete_task, hget]
    | some t =>
      simp only [delete_task, hget, save_tasks]
      rw [erase_found_eq_eraseFirstById hget]
      exact get_eraseFirstById_none hnodup

/-- Witness for C3: deleting id 1 from the two-task state succeeds and a
subsequent lookup of id 1 misses. -/
theorem C3_witness :
    (delete_task wit2 1).1 = true ∧
    get_task_by_id (delete_task wit2 1).2.tasks 1 = none :=
  ⟨by decide, (C3_delete_semantics wit2 1).2.2 (by decide)⟩

/-- C5: update_task on an id that is present overwrites exactly the provided
attributes of the first matching task, always refreshes its updated_at to the
current instant (which is at least the prior updated_at under a monotone
clock), returns success, and the change is visible through get_task_by_id; on
an absent id it returns not-found and changes nothing. -/
theorem C5_update_semantics (st : AppState) (now : Nat) (task_id : Int)
    (kw : TaskUpdate) (t : Task)
    (hget : get_task_by_id st.tasks task_id = some t)
    (hclock : stateClockLE st now) (hid : kw.id = none) :
    (update_task st now task_id kw).1 = true ∧
    (update_task st now task_id kw).2.tasks
      = updateFirst st.tasks task_id
          (fun u => { applyKwargs u kw with updated_at := now }) ∧
    get_task_by_id (update_task st now task_id kw).2.tasks task_id
      = some { id := t.id, title := kw.title.getD t.title,
               description := kw.description.getD t.description,
               status := kw.status.getD t.status,
               created_at := kw.created_at.getD t.created_at,
               updated_at := now } ∧
    t.updated_at ≤ now ∧
    (∀ st2 now2 task_id2 kw2, get_task_by_id st2.tasks task_id2 = none →
      update_task st2 now2 task_id2 kw2 = (false, st2)) := by
  have htid := get_task_by_id_id hget
  have hfid : ((fun u => { applyKwargs u kw with updated_at := now }) t).id = task_id := by
    simp [applyKwargs, hid, htid]
  refine ⟨?_, ?_, ?_, ?_, ?_⟩
  · simp [update_task, hget]
  · simp [update_task, hget, save_tasks]
  · simp only [update_task, hget, save_tasks]
    rw [get_updateFirst hget hfid]
    simp [applyKwargs, hid]
  · exact (hclock t (get_task_by_id_mem hget)).2
  · intro st2 now2 task_id2 kw2 h
    simp [update_task, h]

/-- Witness for C5: marking task 1 completed in the two-task state succeeds
and the task is afterwards completed with updated_at refreshed to 3. -/
theorem C5_witness :
    (update_task wit2 3 1 { status := some "completed" }).1 = true ∧
    get_task_by_id (update_task wit2 3 1 { status := some "completed" }).2.tasks 1
      = some taskMilkDone := by
  have h := C5_update_semantics wit2 3 1 { status := some "completed" } taskMilk
    (by decide) (by decide) rfl
  exact ⟨h.1, by rw [h.2.2.1]; rfl⟩

/-- Counterexample for C6 as stated: the collision state is reachable through
the TaskManager interface with a monotone clock, yet it holds two distinct
live tasks sharing id 2 and a task whose status is neither pending nor
completed. -/
theorem C6_counterexample : Reachable scn5 ∧ ¬ TaskInvariants scn5 := by
  constructor
  · have h0 : Reachable scn0 := Reachable.init 0
    have h1 : Reachable scn1 := Reachable.add scn0 1 "a" "" h0 (by decide)
    have h2 : Reachable scn2 := Reachable.add scn1 2 "b" "" h1 (by decide)
    have h3 : Reachable scn3 :=
      Reachable.update scn2 3 2 { status := some "banana" } h2 (by decide)
    have h4 : Reachable scn4 := Reachable.delete scn3 1 h3
    exact Reachable.add scn4 4 "c" "" h4 (by decide)
  · decide

/-- C6 amended: in every state reachable through the TaskManager interface in
which update_task is only given well-formed arguments (no override of id or
timestamps, status pending or completed when provided), every task's status
is pending or completed and its updated_at is at least its created_at; id
uniqueness among live tasks does not hold and is dropped. -/
theorem C6_invariants_checked (st : AppState) (h : ReachableChecked st) :
    ∀ t ∈ st.tasks, (t.status = "pending" ∨ t.status = "completed") ∧
      t.created_at ≤ t.updated_at := by
  induction h with
  | init now =>
    intro t ht
    simp [TaskManager.init] at ht
  | add st now title description hr hclock ih =>
    intro t ht
    simp only [add_task, save_tasks, List.mem_append, List.mem_singleton] at ht
    rcases ht with ht | ht
    · exact ih t ht
    · subst ht
      exact ⟨Or.inl rfl, le_refl now⟩
  | update st now task_id kw hr hclock hkid hkc hku hks ih =>
    intro t ht
    cases hget : get_task_by_id st.tasks task_id with
    | none =>
      simp only [update_task, hget] at ht
      exact ih t ht
    | some u =>
      simp only [update_task, hget, save_tasks] at ht
      rcases mem_updateFirst ht with hmem | ⟨v, hv, he⟩
      · exact ih t hmem
      · subst he
        constructor
        · have hst : ({ applyKwargs v kw with updated_at := now } : Task).status
              = kw.status.getD v.status := rfl
          rcases hks with h | h | h <;> rw [hst, h]
          · exact (ih v hv).1
          · exact Or.inl rfl
          · exact Or.inr rfl
        · have hca : ({ applyKwargs v kw with updated_at := now } : Task).created_at
              = kw.created_at.getD v.created_at := rfl
          have hua : ({ applyKwargs v kw with updated_at := now } : Task).updated_at
              = now := rfl
          rw [hca, hua, hkc]
          exact (hclock v hv).1
  | delete st task_id hr ih =>
    intro t ht
    cases hget : get_task_by_id st.tasks task_id with
    | none =>
      simp only [delete_task, hget] at ht
      exact ih t ht
    | some u =>
      simp only [delete_task, hget, save_tasks] at ht
      exact ih t (List.erase_subset _ _ ht)

/-- Witness for C6 at the concrete state wit3, reached by two adds and one
well-formed status update: the completed task satisfies the invariants. -/
theorem C6_witness :
    (taskMilkDone.status = "pending" ∨ taskMilkDone.status = "completed") ∧
      taskMilkDone.created_at ≤ taskMilkDone.updated_at := by
  have h0 : ReachableChecked wit0 := ReachableChecked.init 0
  have h1 : ReachableChecked wit1 :=
    ReachableChecked.add wit0 1 "Buy milk" "" h0 (by decide)
  have h2 : ReachableChecked wit2 :=
    ReachableChecked.add wit1 2 "Write report" "" h1 (by decide)
  have h3 : ReachableChecked wit3 :=
    ReachableChecked.update wit2 3 1 { status := some "completed" } h2 (by decide)
      rfl rfl rfl (Or.inr (Or.inr rfl))
  exact C6_invariants_checked wit3 h3 taskMilkDone (by decide)

/-- C9: constructing a manager with no snapshot yields an empty collection
and installs an empty snapshot; constructing from a synced state reloads
exactly the collection, synced; and add_task, update_task and delete_task
each preserve the property that the session snapshot equals the serialized
form of the full current collection. -/
theorem C9_persistence (st : AppState) (now now2 : Nat) (title description : String)
    (task_id : Int) (kw : TaskUpdate) (hsync : synced st) :
    TaskManager.init none now = { session := some [], tasks := [] } ∧
    (TaskManager.init st.session now).tasks = st.tasks ∧
    synced (TaskManager.init st.session now) ∧
    synced (add_task st now2 title description).2 ∧
    synced (update_task st now2 task_id kw).2 ∧
    synced (delete_task st task_id).2 := by
  unfold synced at hsync
  refine ⟨rfl, ?_, ?_, ?_, ?_, ?_⟩
  · rw [hsync]
    simp only [TaskManager.init, Option.getD_some]
    exact map_from_dict_map_to_dict _ now st.tasks
  · unfold synced
    simp only [TaskManager.init]
    rw [map_to_dict_map_from_dict]
  · unfold synced
    simp [add_task, save_tasks]
  · cases hget : get_task_by_id st.tasks task_id with
    | none => simp only [update_task, hget]; exact hsync
    | some u => simp only [update_task, hget]; rfl
  · cases hget : get_task_by_id st.tasks task_id with
    | none => simp only [delete_task, hget]; exact hsync
    | some u => simp only [delete_task, hget]; rfl

/-- Witness for C9 at the concrete synced one-task state. -/
theorem C9_witness :
    TaskManager.init none 9 = { session := some [], tasks := [] } ∧
    (TaskManager.init wit1.session 9).tasks = wit1.tasks ∧
    synced (add_task wit1 2 "Write report" "").2 := by
  have h := C9_persistence wit1 9 2 "Write report" "" 1
    { status := some "completed" } (by decide)
  exact ⟨h.1, h.2.1, h.2.2.2.1⟩

end TodoApp
